import Mathlib

/-!
Verification of the K2400 maximum-power-point tracker
(`K2400_MPP_tracking.py`) against its natural-language specification.

The control-algorithm core of the script is embedded shallowly:

* the perturb-and-observe state update of `track_maximum_power_point`
  (lines 389-395) becomes the pure function `po_update` on `TrackState`;
* the initial-sweep analysis of `determine_initial_Vmpp` (lines 233-238)
  becomes `determine_initial_Vmpp` over lists of rational samples, with
  `np_argmax` modelling `numpy.argmax` (first index attaining the maximum);
* the walk-in loop (lines 361-373) becomes the fuel-indexed counters
  `walk_in_count` and `walk_in_vi`;
* the shutdown sequence (lines 333-348), the cycle bodies of the two loops,
  and the exception structure of `initialise_shutter_control` and of the
  `KeyboardInterrupt` handler become small effect-trace functions.

Machine floats are modelled by `ℚ`; the Python `int` direction by `ℤ`.
-/

/-- Mutable state carried across one perturb-and-observe tracking cycle:
`self.Vmpp`, the local `direction` (initialised to `1` on line 379) and the
local `previous_power` (line 378). -/
structure TrackState where
  Vmpp : ℚ
  direction : ℤ
  previous_power : ℚ
deriving DecidableEq

/-- One perturb-and-observe update, lines 389-395 of
`track_maximum_power_point`: if the freshly measured `power` strictly
exceeds `previous_power` the voltage keeps moving in the current direction
(`self.Vmpp += direction * self.v_step`); otherwise the direction is first
negated (`direction *= -1`) and the step is applied in the new direction.
In both branches `previous_power = power` afterwards (line 395). -/
def po_update (v_step : ℚ) (s : TrackState) (power : ℚ) : TrackState :=
  if power > s.previous_power then
    { Vmpp := s.Vmpp + (s.direction : ℚ) * v_step
      direction := s.direction
      previous_power := power }
  else
    { Vmpp := s.Vmpp + ((-s.direction : ℤ) : ℚ) * v_step
      direction := -s.direction
      previous_power := power }

/-- The direction recorded after each reading when the tracking loop is fed
a list of successive power readings. -/
def po_directions (v_step : ℚ) (s : TrackState) : List ℚ → List ℤ
  | [] => []
  | p :: ps => (po_update v_step s p).direction :: po_directions v_step (po_update v_step s p) ps

/-- C4: in a tracking cycle, if `power > previousPower` the direction is
unchanged and `Vmpp` moves by `direction * stepSize`; otherwise (equality
included) the direction is negated first and `Vmpp` moves by the new
direction times `stepSize`; in both branches `previousPower` becomes
`power`. -/
theorem po_update_cycle_spec (v_step power : ℚ) (s : TrackState) :
    (power > s.previous_power →
      (po_update v_step s power).direction = s.direction ∧
      (po_update v_step s power).Vmpp = s.Vmpp + (s.direction : ℚ) * v_step) ∧
    (¬ power > s.previous_power →
      (po_update v_step s power).direction = -s.direction ∧
      (po_update v_step s power).Vmpp = s.Vmpp + ((-s.direction : ℤ) : ℚ) * v_step) ∧
    (po_update v_step s power).previous_power = power := by
  unfold po_update
  by_cases h : power > s.previous_power
  · simp [h]
  · simp [h]

/-- Witness for `po_update_cycle_spec` at `v_step = 1`, `power = 2`,
`s = ⟨0, 1, 1⟩`. -/
theorem po_update_cycle_spec_witness :
    ((2 : ℚ) > (1 : ℚ) →
      (po_update 1 { Vmpp := 0, direction := 1, previous_power := 1 } 2).direction = 1 ∧
      (po_update 1 { Vmpp := 0, direction := 1, previous_power := 1 } 2).Vmpp = 0 + ((1 : ℤ) : ℚ) * 1) ∧
    (¬ (2 : ℚ) > (1 : ℚ) →
      (po_update 1 { Vmpp := 0, direction := 1, previous_power := 1 } 2).direction = -1 ∧
      (po_update 1 { Vmpp := 0, direction := 1, previous_power := 1 } 2).Vmpp = 0 + ((-1 : ℤ) : ℚ) * 1) ∧
    (po_update 1 { Vmpp := 0, direction := 1, previous_power := 1 } 2).previous_power = 2 :=
  po_update_cycle_spec 1 2 { Vmpp := 0, direction := 1, previous_power := 1 }

/-- C5 counterexample: feeding the synthetic power sequence
`[1.0, 1.2, 0.9, 0.9, 1.1]` to the tracking update with initial
`direction = +1` (and `previous_power = 0`, below the first reading, so
that the first reading counts as improved) yields the direction sequence
`[+1, +1, -1, +1, +1]`: the equal power at step 4 is "not improved" and
therefore reverses the direction from `-1` back to `+1`, contradicting the
claimed sequence `[+1, +1, -1, -1, +1]`. -/
theorem po_directions_synthetic_ne_claimed :
    po_directions 1 { Vmpp := 0, direction := 1, previous_power := 0 }
        [1, 12/10, 9/10, 9/10, 11/10] = [1, 1, -1, 1, 1] ∧
    ([1, 1, -1, 1, 1] : List ℤ) ≠ [1, 1, -1, -1, 1] := by
  constructor
  · norm_num [po_directions, po_update]
  · simp

/-- C5 amended: on the synthetic power sequence `[1.0, 1.2, 0.9, 0.9, 1.1]`
with initial `direction = +1` and any initial `previous_power` below the
first reading, the produced direction sequence is `[+1, +1, -1, +1, +1]`
(the equal power at step 4 counts as not improved and causes a reversal
from `-1` to `+1`), independently of the step size and starting voltage. -/
theorem po_directions_synthetic_spec (v_step vmpp p0 : ℚ) (h : p0 < 1) :
    po_directions v_step { Vmpp := vmpp, direction := 1, previous_power := p0 }
        [1, 12/10, 9/10, 9/10, 11/10] = [1, 1, -1, 1, 1] := by
  norm_num [po_directions, po_update, h]

/-- Witness for `po_directions_synthetic_spec` at `v_step = 1`,
`vmpp = 62/100`, `p0 = 0`. -/
theorem po_directions_synthetic_spec_witness :
    (0 : ℚ) < 1 ∧
    po_directions 1 { Vmpp := 62/100, direction := 1, previous_power := 0 }
        [1, 12/10, 9/10, 9/10, 11/10] = [1, 1, -1, 1, 1] :=
  ⟨by norm_num, po_directions_synthetic_spec 1 (62/100) 0 (by norm_num)⟩

/-- Model of `numpy.argmax` over a list of rationals: the first index at
which the list attains its maximum (and `0` on the empty list, where the
predicate is never satisfied and `findIdx` returns the length). -/
def np_argmax (l : List ℚ) : ℕ :=
  l.findIdx (fun (x : ℚ) => decide ((x : WithBot ℚ) = l.maximum))

/-- Result record of the initial sweep analysis, lines 233-238 of
`determine_initial_Vmpp`: `Isc` is the last sweep current (`i[-1]`),
`powers` is the elementwise `|v*i|`, `mpp_ind = np.argmax(p)` and
`Vmpp = v[mpp_ind]`. -/
structure SweepResult where
  Isc : ℚ
  powers : List ℚ
  mpp_ind : ℕ
  Vmpp : ℚ

/-- The sweep analysis of `determine_initial_Vmpp` (lines 233-238), applied
to the voltage and current columns of the reshaped sweep data. List
accesses use `getD` with default `0`; the theorems only use them at indices
shown to be in range. -/
def determine_initial_Vmpp (v i : List ℚ) : SweepResult :=
  let p := List.zipWith (fun a b => |a * b|) v i
  { Isc := i.getLastD 0
    powers := p
    mpp_ind := np_argmax p
    Vmpp := v.getD (np_argmax p) 0 }

lemma np_argmax_lt_length (l : List ℚ) (h : l ≠ []) : np_argmax l < l.length := by
  obtain ⟨m, hm⟩ : ∃ m : ℚ, l.maximum = (m : WithBot ℚ) := by
    cases hmax : l.maximum with
    | bot => exact absurd (List.maximum_eq_bot.mp hmax) h
    | coe m => exact ⟨m, rfl⟩
  exact List.findIdx_lt_length_of_exists ⟨m, List.maximum_mem hm, by simp [hm]⟩

lemma np_argmax_getD_le (l : List ℚ) (h : l ≠ []) (k : ℕ) (hk : k < l.length) :
    l.getD k 0 ≤ l.getD (np_argmax l) 0 := by
  obtain ⟨m, hm⟩ : ∃ m : ℚ, l.maximum = (m : WithBot ℚ) := by
    cases hmax : l.maximum with
    | bot => exact absurd (List.maximum_eq_bot.mp hmax) h
    | coe m => exact ⟨m, rfl⟩
  have hlt : np_argmax l < l.length := np_argmax_lt_length l h
  have hp := @List.findIdx_getElem ℚ
    (fun (x : ℚ) => decide ((x : WithBot ℚ) = l.maximum)) l hlt
  have hval : l[np_argmax l] = m := by
    have h2 := (of_decide_eq_true hp).trans hm
    exact_mod_cast h2
  rw [List.getD_eq_getElem l 0 hk, List.getD_eq_getElem l 0 hlt, hval]
  exact List.le_maximum_of_mem (List.getElem_mem hk) hm

lemma np_argmax_all_zero (l : List ℚ) (h : l ≠ []) (h0 : ∀ x ∈ l, x = 0) :
    np_argmax l = 0 := by
  cases l with
  | nil => exact absurd rfl h
  | cons a t =>
    have ha : a = 0 := h0 a (List.mem_cons_self a t)
    have hmax : (a :: t).maximum = ((a : ℚ) : WithBot ℚ) :=
      List.maximum_eq_coe_iff.mpr
        ⟨List.mem_cons_self a t, fun b hb => by simp [h0 b hb, ha]⟩
    unfold np_argmax
    rw [List.findIdx_cons]
    simp [hmax]

/-- C6: for every nonempty sweep, the power at `mpp_ind` dominates the
power at every index in range (`np.argmax` semantics), and when every
power entry is zero the analysis picks index 0, so `Vmpp` collapses to the
first swept voltage, which is `Voc` (the sweep of lines 216-217 starts at
`Voc`): a defined outcome, not an error. -/
theorem sweep_mpp_ind_is_argmax (v i : List ℚ) (hv : v ≠ []) (hi : i ≠ [])
    (Voc : ℚ) (hVoc : v.head? = some Voc) :
    (∀ k, k < (determine_initial_Vmpp v i).powers.length →
      (determine_initial_Vmpp v i).powers.getD k 0 ≤
        (determine_initial_Vmpp v i).powers.getD (determine_initial_Vmpp v i).mpp_ind 0) ∧
    ((∀ x ∈ (determine_initial_Vmpp v i).powers, x = 0) →
      (determine_initial_Vmpp v i).mpp_ind = 0 ∧ (determine_initial_Vmpp v i).Vmpp = Voc) := by
  have hplen : 0 < (List.zipWith (fun a b => |a * b|) v i).length := by
    rw [List.length_zipWith]
    exact lt_min (List.length_pos.mpr hv) (List.length_pos.mpr hi)
  have hpne : List.zipWith (fun a b => |a * b|) v i ≠ [] :=
    List.ne_nil_of_length_pos hplen
  constructor
  · intro k hk
    simp only [determine_initial_Vmpp] at hk ⊢
    exact np_argmax_getD_le _ hpne k hk
  · intro h0
    simp only [determine_initial_Vmpp] at h0 ⊢
    have hidx : np_argmax (List.zipWith (fun a b => |a * b|) v i) = 0 :=
      np_argmax_all_zero _ hpne h0
    refine ⟨hidx, ?_⟩
    rw [hidx]
    cases v with
    | nil => exact absurd rfl hv
    | cons a t =>
      have : a = Voc := by simpa using hVoc
      simp [this]

/-- Witness for `sweep_mpp_ind_is_argmax` with the sweep samples
`v = [1, 1/2, 0]`, `i = [-1, -2, 0]` (so `powers = [1, 1, 0]`) and
`Voc = 1`. -/
theorem sweep_mpp_ind_is_argmax_witness :
    (([1, 1/2, 0] : List ℚ) ≠ [] ∧ ([-1, -2, 0] : List ℚ) ≠ [] ∧
      ([1, 1/2, 0] : List ℚ).head? = some 1) ∧
    ((∀ k, k < (determine_initial_Vmpp [1, 1/2, 0] [-1, -2, 0]).powers.length →
      (determine_initial_Vmpp [1, 1/2, 0] [-1, -2, 0]).powers.getD k 0 ≤
        (determine_initial_Vmpp [1, 1/2, 0] [-1, -2, 0]).powers.getD
          (determine_initial_Vmpp [1, 1/2, 0] [-1, -2, 0]).mpp_ind 0) ∧
    ((∀ x ∈ (determine_initial_Vmpp [1, 1/2, 0] [-1, -2, 0]).powers, x = 0) →
      (determine_initial_Vmpp [1, 1/2, 0] [-1, -2, 0]).mpp_ind = 0 ∧
        (determine_initial_Vmpp [1, 1/2, 0] [-1, -2, 0]).Vmpp = 1)) :=
  ⟨⟨by simp, by simp, rfl⟩,
    sweep_mpp_ind_is_argmax [1, 1/2, 0] [-1, -2, 0] (by simp) (by simp) 1 rfl⟩

/-- C1 counterexample: a perturb-and-observe update that does not preserve
`0 ≤ Vmpp ≤ Voc`. Take `Voc = 1`; a two-point sweep `v = [1, 0]`,
`i = [1, 0]` puts the power maximum at the first point, so the session
starts tracking at `Vmpp = 1 = Voc` (and the instrument step for a
two-point sweep is `1`). With `direction = 1` (its initial value, line
379), `previous_power = 0` (a walk-in reading with zero current) and a
measured power of `1 > 0`, lines 389-390 move `Vmpp` to `2 > Voc`. -/
theorem po_update_escapes_vmpp_bounds :
    (determine_initial_Vmpp [1, 0] [1, 0]).Vmpp = 1 ∧
    (po_update 1 { Vmpp := 1, direction := 1, previous_power := 0 } 1).Vmpp = 2 ∧
    ¬ (po_update 1 { Vmpp := 1, direction := 1, previous_power := 0 } 1).Vmpp ≤ 1 := by
  have hp : List.zipWith (fun a b => |a * b|) ([1, 0] : List ℚ) [1, 0] = [1, 0] := by
    norm_num
  have hmax : (([1, 0] : List ℚ).maximum) = ((1 : ℚ) : WithBot ℚ) :=
    List.maximum_eq_coe_iff.mpr ⟨by simp, by intro a ha; fin_cases ha <;> norm_num⟩
  have hidx : np_argmax [1, 0] = 0 := by
    unfold np_argmax
    rw [List.findIdx_cons]
    simp [hmax]
  refine ⟨?_, by norm_num [po_update], by norm_num [po_update]⟩
  simp [determine_initial_Vmpp, hp, hidx]

/-- C1 amended: immediately after the initial sweep, `Vmpp` does satisfy
`0 ≤ Vmpp ≤ Voc` whenever every swept voltage lies in `[0, Voc]` (the
sweep runs from `Voc` down to `0`); but each tracking update simply moves
`Vmpp` by `direction * stepSize` with no clamping, so the bounds are not
preserved by the perturb-and-observe loop. -/
theorem vmpp_sweep_bounds_and_update_delta (v i : List ℚ) (Voc : ℚ) (hne : v ≠ [])
    (hb : ∀ x ∈ v, 0 ≤ x ∧ x ≤ Voc) :
    (0 ≤ (determine_initial_Vmpp v i).Vmpp ∧ (determine_initial_Vmpp v i).Vmpp ≤ Voc) ∧
    ∀ (v_step power : ℚ) (s : TrackState),
      (po_update v_step s power).Vmpp = s.Vmpp + ((po_update v_step s power).direction : ℚ) * v_step := by
  have h0Voc : 0 ≤ Voc := by
    have h1 := hb (v.head hne) (List.head_mem hne)
    exact le_trans h1.1 h1.2
  constructor
  · simp only [determine_initial_Vmpp]
    by_cases hlt : np_argmax (List.zipWith (fun a b => |a * b|) v i) < v.length
    · rw [List.getD_eq_getElem v 0 hlt]
      exact hb _ (List.getElem_mem hlt)
    · rw [List.getD_eq_default v 0 (le_of_not_lt hlt)]
      exact ⟨le_refl 0, h0Voc⟩
  · intro v_step power s
    unfold po_update
    by_cases h : power > s.previous_power
    · simp [h]
    · simp [h]

/-- Witness for `vmpp_sweep_bounds_and_update_delta` at `v = [1, 0]`,
`i = [1, 0]`, `Voc = 1`. -/
theorem vmpp_sweep_bounds_and_update_delta_witness :
    (([1, 0] : List ℚ) ≠ [] ∧ ∀ x ∈ ([1, 0] : List ℚ), 0 ≤ x ∧ x ≤ 1) ∧
    ((0 ≤ (determine_initial_Vmpp [1, 0] [1, 0]).Vmpp ∧
      (determine_initial_Vmpp [1, 0] [1, 0]).Vmpp ≤ 1) ∧
    ∀ (v_step power : ℚ) (s : TrackState),
      (po_update v_step s power).Vmpp = s.Vmpp + ((po_update v_step s power).direction : ℚ) * v_step) :=
  ⟨⟨by simp, by intro x hx; fin_cases hx <;> norm_num⟩,
    vmpp_sweep_bounds_and_update_delta [1, 0] [1, 0] 1 (by simp)
      (by intro x hx; fin_cases hx <;> norm_num)⟩

/-- The walk-in loop of lines 361-373 (`V_set = 0`, then
`while V_set < self.Vmpp: ... V_set += self.v_step`), counting the number
of executed loop bodies. The loop has no bound in the source; `fuel` is an
upper bound on the number of iterations inspected, and the theorems assume
it is large enough. -/
def walk_in_count (Vmpp v_step : ℚ) : ℕ → ℚ → ℕ
  | 0, _ => 0
  | fuel + 1, V_set =>
    if V_set < Vmpp then walk_in_count Vmpp v_step fuel (V_set + v_step) + 1 else 0

lemma walk_in_count_eq (Vmpp v_step : ℚ) (hs : 0 < v_step) :
    ∀ (fuel : ℕ) (V_set : ℚ), (⌈(Vmpp - V_set) / v_step⌉).toNat ≤ fuel →
      walk_in_count Vmpp v_step fuel V_set = (⌈(Vmpp - V_set) / v_step⌉).toNat := by
  intro fuel
  induction fuel with
  | zero =>
    intro V_set hf
    simp only [walk_in_count]
    omega
  | succ n ih =>
    intro V_set hf
    by_cases h : V_set < Vmpp
    · have hpos : (0 : ℚ) < (Vmpp - V_set) / v_step :=
        div_pos (sub_pos.mpr h) hs
      have hc1 : 1 ≤ ⌈(Vmpp - V_set) / v_step⌉ := Int.ceil_pos.mpr hpos
      have hstep : (Vmpp - (V_set + v_step)) / v_step = (Vmpp - V_set) / v_step - 1 := by
        field_simp
        ring
      have hnext : ⌈(Vmpp - (V_set + v_step)) / v_step⌉ = ⌈(Vmpp - V_set) / v_step⌉ - 1 := by
        rw [hstep, Int.ceil_sub_one]
      have hle : (⌈(Vmpp - (V_set + v_step)) / v_step⌉).toNat ≤ n := by
        rw [hnext]; omega
      simp only [walk_in_count, if_pos h]
      rw [ih (V_set + v_step) hle, hnext]
      omega
    · have hle : Vmpp - V_set ≤ 0 := sub_nonpos.mpr (le_of_not_lt h)
      have hc : ⌈(Vmpp - V_set) / v_step⌉ ≤ 0 := by
        have hd : (Vmpp - V_set) / v_step ≤ 0 := div_nonpos_of_nonpos_of_nonneg hle hs.le
        exact_mod_cast Int.ceil_le.mpr (by exact_mod_cast hd)
      simp only [walk_in_count, if_neg h]
      omega

/-- C7: with `Vmpp > 0` and `stepSize > 0` (and enough fuel, i.e. the
runtime limit is not reached), the walk-in loop starting from `V_set = 0`
executes exactly `⌈Vmpp / stepSize⌉` cycles. -/
theorem walk_in_cycle_count (Vmpp v_step : ℚ) (fuel : ℕ)
    (hv : 0 < Vmpp) (hs : 0 < v_step)
    (hfuel : (⌈Vmpp / v_step⌉).toNat ≤ fuel) :
    (walk_in_count Vmpp v_step fuel 0 : ℤ) = ⌈Vmpp / v_step⌉ := by
  have h0 : (⌈(Vmpp - 0) / v_step⌉).toNat ≤ fuel := by
    rw [sub_zero]; exact hfuel
  have := walk_in_count_eq Vmpp v_step hs fuel 0 h0
  rw [sub_zero] at this
  rw [this]
  have hpos : 0 < ⌈Vmpp / v_step⌉ := Int.ceil_pos.mpr (div_pos hv hs)
  omega

/-- Witness for `walk_in_cycle_count` at the example from the spec
`Vmpp = 0.62`, `stepSize = 0.01`: exactly 62 walk-in cycles. -/
theorem walk_in_cycle_count_witness :
    (0 : ℚ) < 62/100 ∧ (0 : ℚ) < 1/100 ∧
    (⌈((62 : ℚ)/100) / ((1 : ℚ)/100)⌉).toNat ≤ 62 ∧
    (walk_in_count (62/100) (1/100) 62 0 : ℤ) = ⌈((62 : ℚ)/100) / ((1 : ℚ)/100)⌉ ∧
    (⌈((62 : ℚ)/100) / ((1 : ℚ)/100)⌉ : ℤ) = 62 := by
  have hq : ((62 : ℚ)/100) / ((1 : ℚ)/100) = ((62 : ℤ) : ℚ) := by norm_num
  have hceil : (⌈((62 : ℚ)/100) / ((1 : ℚ)/100)⌉ : ℤ) = 62 := by
    rw [hq, Int.ceil_intCast]
  refine ⟨by norm_num, by norm_num, by rw [hceil]; simp,
    walk_in_cycle_count (62/100) (1/100) 62 (by norm_num) (by norm_num)
      (by rw [hceil]; simp), hceil⟩

/-- The walk-in loop again (lines 361-373), now tracking the Python locals
`v, i` that the loop body overwrites on each instrument read
(line 369). `readings k` is the (voltage, current) pair returned by the
k-th walk-in read; `vi` holds the current value of the locals, seeded by
the read on line 364 that records the start time. -/
def walk_in_vi (Vmpp v_step : ℚ) (readings : ℕ → ℚ × ℚ) :
    ℕ → ℚ → ℕ → ℚ × ℚ → ℚ × ℚ
  | 0, _, _, vi => vi
  | fuel + 1, V_set, k, vi =>
    if V_set < Vmpp then
      walk_in_vi Vmpp v_step readings fuel (V_set + v_step) (k + 1) (readings k)
    else vi

/-- The value of `previous_power` computed on line 378
(`previous_power = abs(v*i)`) just before the tracking loop starts:
`r0` is the reading of line 364, `readings` the walk-in readings. -/
def previous_power_at_track_start (Vmpp v_step : ℚ) (readings : ℕ → ℚ × ℚ)
    (r0 : ℚ × ℚ) (fuel : ℕ) : ℚ :=
  |(walk_in_vi Vmpp v_step readings fuel 0 0 r0).1 *
    (walk_in_vi Vmpp v_step readings fuel 0 0 r0).2|

lemma walk_in_vi_eq (Vmpp v_step : ℚ) (readings : ℕ → ℚ × ℚ) :
    ∀ (fuel : ℕ) (V_set : ℚ) (k : ℕ) (vi : ℚ × ℚ),
      walk_in_vi Vmpp v_step readings fuel V_set k vi =
        if walk_in_count Vmpp v_step fuel V_set = 0 then vi
        else readings (k + walk_in_count Vmpp v_step fuel V_set - 1) := by
  intro fuel
  induction fuel with
  | zero =>
    intro V_set k vi
    simp [walk_in_vi, walk_in_count]
  | succ n ih =>
    intro V_set k vi
    by_cases h : V_set < Vmpp
    · simp only [walk_in_vi, walk_in_count, if_pos h]
      rw [ih (V_set + v_step) (k + 1) (readings k)]
      by_cases hc : walk_in_count Vmpp v_step n (V_set + v_step) = 0
      · simp [hc]
      · have h1 : walk_in_count Vmpp v_step n (V_set + v_step) + 1 ≠ 0 := by omega
        rw [if_neg h1, if_neg hc]
        exact congrArg readings (by omega)
    · simp [walk_in_vi, walk_in_count, if_neg h]

lemma walk_in_count_zero_of_nonpos (Vmpp v_step : ℚ) (h : Vmpp ≤ 0) :
    ∀ fuel : ℕ, walk_in_count Vmpp v_step fuel 0 = 0 := by
  intro fuel
  cases fuel with
  | zero => rfl
  | succ n => simp [walk_in_count, not_lt.mpr h]

/-- C10: the `previous_power` used in the first track-phase comparison is
`|v*i|` of the last walk-in reading when the walk-in loop runs at least
once, and `|v*i|` of the initial reading of line 364 when the loop runs
zero iterations, which happens exactly when `Vmpp ≤ 0`. -/
theorem previous_power_at_track_start_spec (Vmpp v_step : ℚ)
    (readings : ℕ → ℚ × ℚ) (r0 : ℚ × ℚ) (fuel : ℕ)
    (hs : 0 < v_step) (hfuel : (⌈Vmpp / v_step⌉).toNat ≤ fuel) :
    (Vmpp ≤ 0 →
      previous_power_at_track_start Vmpp v_step readings r0 fuel = |r0.1 * r0.2|) ∧
    (0 < Vmpp →
      0 < walk_in_count Vmpp v_step fuel 0 ∧
      previous_power_at_track_start Vmpp v_step readings r0 fuel =
        |(readings (walk_in_count Vmpp v_step fuel 0 - 1)).1 *
          (readings (walk_in_count Vmpp v_step fuel 0 - 1)).2|) := by
  constructor
  · intro hle
    unfold previous_power_at_track_start
    rw [walk_in_vi_eq, if_pos (walk_in_count_zero_of_nonpos Vmpp v_step hle fuel)]
  · intro hpos
    have h0 : (⌈(Vmpp - 0) / v_step⌉).toNat ≤ fuel := by rw [sub_zero]; exact hfuel
    have hcnt := walk_in_count_eq Vmpp v_step hs fuel 0 h0
    rw [sub_zero] at hcnt
    have hcpos : 0 < ⌈Vmpp / v_step⌉ := Int.ceil_pos.mpr (div_pos hpos hs)
    have hne : walk_in_count Vmpp v_step fuel 0 ≠ 0 := by
      rw [hcnt]; omega
    refine ⟨Nat.pos_of_ne_zero hne, ?_⟩
    unfold previous_power_at_track_start
    rw [walk_in_vi_eq, if_neg hne]
    simp

/-- Witness for `previous_power_at_track_start_spec` at `Vmpp = 1/2`,
`v_step = 1/2` (one walk-in cycle), constant readings `(2, 3)` and initial
reading `(5, 7)`. -/
theorem previous_power_at_track_start_spec_witness :
    ((0 : ℚ) < 1/2 ∧ (⌈((1 : ℚ)/2) / ((1 : ℚ)/2)⌉).toNat ≤ 1) ∧
    (((1 : ℚ)/2 ≤ 0 →
      previous_power_at_track_start (1/2) (1/2) (fun _ => (2, 3)) (5, 7) 1 =
        |((5 : ℚ), (7 : ℚ)).1 * ((5 : ℚ), (7 : ℚ)).2|) ∧
    ((0 : ℚ) < 1/2 →
      0 < walk_in_count (1/2) (1/2) 1 0 ∧
      previous_power_at_track_start (1/2) (1/2) (fun _ => (2, 3)) (5, 7) 1 =
        |((fun (_ : ℕ) => ((2 : ℚ), (3 : ℚ))) (walk_in_count (1/2) (1/2) 1 0 - 1)).1 *
          ((fun (_ : ℕ) => ((2 : ℚ), (3 : ℚ))) (walk_in_count (1/2) (1/2) 1 0 - 1)).2|)) := by
  have hc : (⌈((1 : ℚ)/2) / ((1 : ℚ)/2)⌉).toNat ≤ 1 := by
    have hq : ((1 : ℚ)/2) / ((1 : ℚ)/2) = ((1 : ℤ) : ℚ) := by norm_num
    rw [hq, Int.ceil_intCast]
    simp
  exact ⟨⟨by norm_num, hc⟩,
    previous_power_at_track_start_spec (1/2) (1/2) (fun _ => (2, 3)) (5, 7) 1
      (by norm_num) hc⟩

/-- Side effects the script can perform on its owned resources. The
vocabulary includes the instrument operations a shutdown could have issued
(`k2400OutputOff` for `:output off`, `k2400Close` for closing the VISA
resource) so that their absence from a trace is meaningful. -/
inductive Effect where
  | shutterWrite (closed : Bool)
  | taskStop
  | taskClose
  | plotOff
  | logClose
  | consoleMsg
  | exitProcess (code : ℕ)
  | k2400OutputOff
  | k2400Close
deriving DecidableEq

/-- The `shutdown` method, lines 333-348: if a shutter task exists it is
written `[True]` (shutter closed), stopped and closed; then interactive
plotting is turned off, the log file is closed, a console message is
printed and the process exits with status 0 (`sys.exit(0)`, line 348). -/
def shutdown (hasTask : Bool) : List Effect :=
  (if hasTask then [Effect.shutterWrite true, Effect.taskStop, Effect.taskClose] else [])
    ++ [Effect.plotOff, Effect.logClose, Effect.consoleMsg, Effect.exitProcess 0]

/-- The timeout test of `check_runtime`, line 329:
`if t_measurement > self.args.total_tracking_time: self.shutdown()`. -/
def runtime_exceeded (start_time tx total_tracking_time : ℚ) : Prop :=
  tx - start_time > total_tracking_time

/-- C2: the shutdown sequence run on every timeout or cancellation exit
closes the shutter (when a task exists) and releases it exactly once, but
issues no `:output off` and never closes the Keithley resource, so the
Measurement Port output is left energized. Evaluated at a concrete
timeout (`start_time = 0`, `tx = 11`, limit `10`) that triggers
the call from `check_runtime` to `shutdown`. -/
theorem shutdown_never_deenergizes_k2400 :
    runtime_exceeded 0 11 10 ∧
    (∀ hasTask : Bool,
      Effect.k2400OutputOff ∉ shutdown hasTask ∧ Effect.k2400Close ∉ shutdown hasTask) ∧
    (shutdown true).count (Effect.shutterWrite true) = 1 ∧
    (shutdown true).count Effect.taskClose = 1 ∧
    (shutdown true).count Effect.k2400Close = 0 ∧
    Effect.exitProcess 0 ∈ shutdown true := by
  refine ⟨by norm_num [runtime_exceeded], ?_, ?_, ?_, ?_, ?_⟩
  · intro hasTask
    cases hasTask <;> simp [shutdown]
  · rfl
  · rfl
  · rfl
  · simp [shutdown]

/-- Where in `track_maximum_power_point` a `KeyboardInterrupt` is
delivered. -/
inductive InterruptPoint where
  | noInterrupt
  | duringWalkIn
  | duringTrack
deriving DecidableEq

/-- How the process ends: `exited code effects` for a `sys.exit(code)`
preceded by the listed effects, or an uncaught `KeyboardInterrupt`
traceback (Python terminates with a nonzero status and runs no cleanup
code of the script). -/
inductive TermOutcome where
  | exited (code : ℕ) (effects : List Effect)
  | uncaughtKeyboardInterrupt
deriving DecidableEq

/-- Termination on the timeout path: `check_runtime` (line 329) calls
`shutdown`, which ends with `sys.exit(0)`. -/
def timeout_outcome (hasTask : Bool) : TermOutcome :=
  TermOutcome.exited 0 (shutdown hasTask)

/-- Termination behaviour of `track_maximum_power_point` under a
`KeyboardInterrupt`. The `try` block of lines 381-395 encloses only the
tracking `while True` loop; its handler (lines 396-397) calls
`self.shutdown()`. The walk-in loop of lines 367-373 lies before the
`try`, so an interrupt there propagates out of the program uncaught. With
no interrupt the tracking loop never returns (`none`). -/
def keyboard_interrupt_outcome (hasTask : Bool) :
    InterruptPoint → Option TermOutcome
  | InterruptPoint.noInterrupt => none
  | InterruptPoint.duringWalkIn => some TermOutcome.uncaughtKeyboardInterrupt
  | InterruptPoint.duringTrack => some (TermOutcome.exited 0 (shutdown hasTask))

/-- C3 counterexample: a cancellation delivered at a walk-in loop-iteration
boundary (tracking has begun: the walk-in loop is measuring and logging)
does not run the shutdown sequence and does not exit with status zero:
the interrupt propagates uncaught, unlike the timeout path. -/
theorem walk_in_interrupt_is_not_clean_shutdown :
    keyboard_interrupt_outcome true InterruptPoint.duringWalkIn ≠
      some (timeout_outcome true) ∧
    keyboard_interrupt_outcome true InterruptPoint.duringWalkIn =
      some TermOutcome.uncaughtKeyboardInterrupt := by
  constructor
  · simp [keyboard_interrupt_outcome, timeout_outcome]
  · rfl

/-- C3 amended: a cancellation observed during the track loop runs exactly
the shutdown sequence of the timeout path and exits with status zero; a
cancellation during the walk-in phase instead propagates as an uncaught
`KeyboardInterrupt`, with no shutdown and a nonzero process status. -/
theorem track_interrupt_runs_timeout_shutdown :
    (∀ hasTask : Bool,
      keyboard_interrupt_outcome hasTask InterruptPoint.duringTrack =
        some (timeout_outcome hasTask)) ∧
    keyboard_interrupt_outcome true InterruptPoint.duringWalkIn =
      some TermOutcome.uncaughtKeyboardInterrupt := by
  exact ⟨fun _ => rfl, rfl⟩

/-- The instrument/UI operations performed by one loop iteration, in
source order. `logWrite` is a `write_data_to_file` call (lines 77-79, a
`print` to the log file with `flush=True`). -/
inductive CycleOp where
  | setVoltage (v : ℚ)
  | readVIT
  | updatePlot
  | checkRuntime
  | logWrite

/-- One iteration of the walk-in loop, lines 368-373: set the source
voltage, read `(v, i, t)`, update the plot, check the runtime, and append
one `(elapsed, v, i)` record to the log file. -/
def walk_in_cycle_ops (V_set : ℚ) : List CycleOp :=
  [CycleOp.setVoltage V_set, CycleOp.readVIT, CycleOp.updatePlot,
    CycleOp.checkRuntime, CycleOp.logWrite]

/-- One iteration of the tracking loop, lines 383-395: set the source
voltage, read `(v, i, t)`, check the runtime and update the plot; the body
contains no `write_data_to_file` call. -/
def track_cycle_ops (Vmpp : ℚ) : List CycleOp :=
  [CycleOp.setVoltage Vmpp, CycleOp.readVIT, CycleOp.checkRuntime,
    CycleOp.updatePlot]

/-- Whether a cycle operation appends a record to the log file. -/
def is_log_write : CycleOp → Bool
  | CycleOp.logWrite => true
  | _ => false

/-- C8: every walk-in cycle appends exactly one log record, but a
track-phase cycle appends none: the tracking loop body (lines 382-395)
never calls `write_data_to_file`, so the claim fails for the track phase. -/
theorem log_records_per_cycle (V_set Vmpp : ℚ) :
    (walk_in_cycle_ops V_set).countP is_log_write = 1 ∧
    (track_cycle_ops Vmpp).countP is_log_write = 0 := by
  constructor <;> rfl

/-- The step of `initialise_shutter_control` (lines 129-141) at which the
`try` block raises, if any. -/
inductive ShutterFailure where
  | taskCreate
  | addChannel
  | taskStart
  | writeShutterOpen
deriving DecidableEq

/-- Python error surfaced by `initialise_shutter_control`. -/
inductive PyError where
  | nameError
deriving DecidableEq

/-- Outcome of `initialise_shutter_control`: a live task, shutter control
disabled (`return None`), or an exception escaping the method. -/
inductive ShutterInitResult where
  | ok
  | disabled
  | raised (e : PyError)
deriving DecidableEq

/-- `initialise_shutter_control`, lines 129-141. If the `try` body
succeeds, the started task is returned. If it raises after `task = Task()`
has bound the local `task`, the handler logs, stops and closes the task
and returns `None`. If `Task()` itself raises, the local `task` is unbound
when the handler evaluates `if task:`, so the handler raises `NameError`,
which escapes the method. -/
def initialise_shutter_control : Option ShutterFailure → ShutterInitResult
  | none => ShutterInitResult.ok
  | some ShutterFailure.taskCreate => ShutterInitResult.raised PyError.nameError
  | some ShutterFailure.addChannel => ShutterInitResult.disabled
  | some ShutterFailure.taskStart => ShutterInitResult.disabled
  | some ShutterFailure.writeShutterOpen => ShutterInitResult.disabled

/-- C9: shutter-initialisation failure is non-fatal only when the failure
occurs after `Task()` has succeeded; when the `Task()` constructor itself
raises (line 130), the `if task:` test in the handler reads an unbound local
and raises `NameError`, so the failure propagates instead of returning
`None` — contradicting the docstring of the method, which says it raises nothing. -/
theorem shutter_init_task_create_failure_raises :
    initialise_shutter_control (some ShutterFailure.taskCreate) =
      ShutterInitResult.raised PyError.nameError ∧
    initialise_shutter_control (some ShutterFailure.taskCreate) ≠
      ShutterInitResult.disabled ∧
    initialise_shutter_control (some ShutterFailure.addChannel) =
      ShutterInitResult.disabled ∧
    initialise_shutter_control (some ShutterFailure.taskStart) =
      ShutterInitResult.disabled ∧
    initialise_shutter_control (some ShutterFailure.writeShutterOpen) =
      ShutterInitResult.disabled := by
  refine ⟨rfl, ?_, rfl, rfl, rfl⟩
  simp [initialise_shutter_control]
